import Mathlib

/-!
Verification of the pycomm3 EtherNet/IP client core (`pycomm3/base.py`,
`pycomm3/clx.py`) against its natural-language specification.

Each Python function relevant to the checked claims is shallowly embedded as
an executable Lean definition.  Machine integers are modelled as `Nat`/`Int`
with explicit bounds where the Python code packs them with fixed-width
`struct` formats; a pack of an out-of-range value is modelled as `none`
(Python raises `struct.error` / `EncodeRangeError`).  Socket I/O is modelled
by passing the sequence of replies (status byte, data bytes) as an explicit
list, and exception oracles stand for I/O failures.
-/

namespace Pycomm3

/-! ## Sequence counter (`Base._get_sequence`, base.py lines 146-156)

```python
if Base._sequence < 65535:
    Base._sequence += 1
else:
    Base._sequence = getpid() % 65535
return Base._sequence
```
The class attribute `Base._sequence` is seeded with `getpid()` by the first
`Base.__init__` of the process (base.py lines 51-55). -/

/-- `Base._get_sequence` as a pure step function: given the process id and the
current value of the class attribute `Base._sequence`, return the new value,
which is also the value emitted for the connected request. -/
def getSequence (pid seq : Nat) : Nat :=
  if seq < 65535 then seq + 1 else pid % 65535

/-- The value emitted by the n-th connected request of a process whose first
`Base.__init__` seeded `Base._sequence` with `pid` (`seqEmitted pid 0` is the
seed itself, which is never emitted). -/
def seqEmitted (pid : Nat) : Nat → Nat
  | 0 => pid
  | n + 1 => getSequence pid (seqEmitted pid n)

/-! ## Connection close (`Base.close`, base.py lines 452-477, and
`Base.clean_up`, lines 479-483)

```python
errs = []
try:
    if self._target_is_connected:
        self.forward_close()
    if self._session != 0:
        self.un_register_session()
except Exception as err:
    errs.append(err)
try:
    if self._sock:
        self._sock.close()
except Exception as err:
    errs.append(err)
self.clean_up()
if errs:
    raise CommError(...)
```
`forward_close` itself raises `CommError` when `self._session == 0`
(base.py lines 281-284); other raises from the two steps are modelled by the
Boolean oracles `fcRaise` / `urRaise`, and a socket-close failure by
`sockRaise`. -/

/-- The connection state fields that `close`/`clean_up` touch:
`_sock is not None`, `_target_is_connected`, `_session`,
`_connection_opened`. -/
structure ConnState where
  sock : Bool
  targetIsConnected : Bool
  session : Nat
  connectionOpened : Bool
deriving DecidableEq, Repr

/-- Which step of `close` produced an accumulated error. -/
inductive CloseErr
  | fc
  | ur
  | sock
deriving DecidableEq, Repr

/-- `Base.clean_up`: resets socket, connected flag, session and opened flag. -/
def cleanUp : ConnState :=
  ⟨false, false, 0, false⟩

/-- Trace of one `Base.close` call: which steps were attempted, the
accumulated errors, the final state, and whether `close` re-raised. -/
structure CloseTrace where
  fcAttempted : Bool
  urAttempted : Bool
  sockAttempted : Bool
  errs : List CloseErr
  final : ConnState
  raised : Bool
deriving DecidableEq, Repr

/-- `Base.close`.  The first `try` block runs Forward Close (when the target
is connected) and then UnRegister Session (when the session handle is
nonzero); a raise from Forward Close aborts that block, so UnRegister Session
is skipped.  The second `try` block closes the socket.  `clean_up` always
runs, and `close` raises `CommError` iff any error was accumulated. -/
def closeConn (st : ConnState) (fcRaise urRaise sockRaise : Bool) : CloseTrace :=
  let fcAttempted := st.targetIsConnected
  let fcRaised := fcAttempted && (st.session == 0 || fcRaise)
  let urAttempted := !fcRaised && !(st.session == 0)
  let urRaised := urAttempted && urRaise
  let errsA := if fcRaised then [CloseErr.fc] else if urRaised then [CloseErr.ur] else []
  let sockAttempted := st.sock
  let sockRaised := sockAttempted && sockRaise
  let errs := errsA ++ (if sockRaised then [CloseErr.sock] else [])
  ⟨fcAttempted, urAttempted, sockAttempted, errs, cleanUp, !errs.isEmpty⟩

/-! ## Byte codec (`pycomm3/bytes_.py`; not under src/)

The repository's `bytes_.py` is not part of the provided sources; only its
callers are.  The spec (§4.1) describes it: fixed-width little-endian packs,
with `EncodeRangeError` on a value outside the type's range.  A failed pack
is modelled as `none`. -/

/-- Little-endian bytes of a 16-bit value. -/
def le16 (n : Nat) : List Nat :=
  [n % 256, n / 256 % 256]

/-- Little-endian bytes of a 32-bit value. -/
def le32 (n : Nat) : List Nat :=
  [n % 256, n / 256 % 256, n / 65536 % 256, n / 16777216 % 256]

/-- Modelled from the spec: `bytes_.pack_usint`, unsigned 8-bit pack
(`struct` format `<B`); out of range raises, modelled as `none`. -/
def pack_usint (v : Int) : Option (List Nat) :=
  if 0 ≤ v ∧ v ≤ 255 then some [v.toNat] else none

/-- Modelled from the spec: `bytes_.pack_uint`, unsigned 16-bit
little-endian pack (`<H`); out of range raises, modelled as `none`. -/
def pack_uint (v : Int) : Option (List Nat) :=
  if 0 ≤ v ∧ v ≤ 65535 then some (le16 v.toNat) else none

/-- Modelled from the spec: `bytes_.pack_dint`, signed 32-bit little-endian
pack (`<i`); out of range raises, modelled as `none`. -/
def pack_dint (v : Int) : Option (List Nat) :=
  if -2147483648 ≤ v ∧ v ≤ 2147483647 then some (le32 (v % 4294967296).toNat) else none

/-- Modelled from the spec: `bytes_.pack_udint`, unsigned 32-bit
little-endian pack (`<I`); out of range raises, modelled as `none`. -/
def pack_udint (v : Int) : Option (List Nat) :=
  if 0 ≤ v ∧ v ≤ 4294967295 then some (le32 v.toNat) else none

/-! ## Element-index segments (`LogixDriver._encode_tag_index`,
clx.py lines 1045-1058)

```python
for idx in index:
    val = int(idx)
    if val <= 0xff:
        path += [ELEMENT_ID["8-bit"], pack_usint(val)]
    elif val <= 0xffff:
        path += [ELEMENT_ID["16-bit"], PADDING_BYTE, pack_uint(val)]
    elif val <= 0xfffffffff:
        path += [ELEMENT_ID["32-bit"], PADDING_BYTE, pack_dint(val)]
    else:
        return None
```
The element-id bytes 0x28/0x29/0x2A and the 0x00 pad come from `const.py`
(not under src/); their values are taken from the spec §4.2. -/

/-- Result of building a request-path fragment: the bytes, the explicit
`return None` of the Python code, or a propagated pack exception. -/
inductive RpRes
  | ok (path : List Nat)
  | invalid
  | packErr
deriving DecidableEq, Repr

/-- One numeric index of `_encode_tag_index`.  Note the third guard in the
source is `val <= 0xfffffffff` — nine `f`s, i.e. `2^36 - 1`. -/
def encodeIndexSegment (v : Int) : RpRes :=
  if v ≤ 255 then
    match pack_usint v with
    | some b => .ok (0x28 :: b)
    | none => .packErr
  else if v ≤ 65535 then
    match pack_uint v with
    | some b => .ok (0x29 :: 0x00 :: b)
    | none => .packErr
  else if v ≤ 68719476735 then
    match pack_dint v with
    | some b => .ok (0x2A :: 0x00 :: b)
    | none => .packErr
  else
    .invalid

/-- `LogixDriver._encode_tag_index` over the list of numeric indices. -/
def encodeTagIndex : List Int → RpRes
  | [] => .ok []
  | v :: rest =>
    match encodeIndexSegment v with
    | .ok s =>
      match encodeTagIndex rest with
      | .ok p => .ok (s ++ p)
      | r => r
    | r => r

/-! ## Legacy EPATH builder (`Base.create_tag_rp`, base.py lines 533-590)

The source splits the tag string on `.` and parses `[i,j,k]` brackets out of
each segment; that textual split is abstracted here by taking the input
already split into `(name bytes, numeric indices)` pairs.  The essential
shape is kept: `rp` is a Python *list* whose entries are byte strings of
differing lengths (`0x91`, the length byte and every name byte are their own
one-byte entries; a 16-bit index contributes the two-byte entry
`ELEMENT_ID["16-bit"] + PADDING_BYTE` plus a two-byte packed value; a 32-bit
index a two-byte entry plus a four-byte value), and the `multi_requests`
prefix byte is `len(rp) // 2` — the number of *list entries* halved, not the
byte length halved. -/

/-- The entries appended to `rp` for one numeric index (base.py lines
570-583); each inner list is one Python list entry. -/
def rpIndexEntries (v : Int) : Except RpRes (List (List Nat)) :=
  if v ≤ 255 then
    match pack_usint v with
    | some b => .ok [[0x28], b]
    | none => .error .packErr
  else if v ≤ 65535 then
    match pack_uint v with
    | some b => .ok [[0x29, 0x00], b]
    | none => .error .packErr
  else if v ≤ 68719476735 then
    match pack_dint v with
    | some b => .ok [[0x2A, 0x00], b]
    | none => .error .packErr
  else
    .error .invalid

/-- Sequentially encode all indices of one segment. -/
def rpIndexList : List Int → Except RpRes (List (List Nat))
  | [] => .ok []
  | v :: rest => do
    let e ← rpIndexEntries v
    let es ← rpIndexList rest
    .ok (e ++ es)

/-- The `rp` entries of one path segment: `0x91`, the name length, each name
byte as its own entry, a pad entry iff the name length is odd, then the
index entries. -/
def rpSegmentEntries (name : List Nat) (idxs : List Int) : Except RpRes (List (List Nat)) := do
  let es ← rpIndexList idxs
  .ok ([[0x91], [name.length]] ++ name.map (fun c => [c])
        ++ (if name.length % 2 = 1 then [[0x00]] else []) ++ es)

/-- All `rp` entries of a pre-split tag path. -/
def rpEntries : List (List Nat × List Int) → Except RpRes (List (List Nat))
  | [] => .ok []
  | (name, idxs) :: rest => do
    let e ← rpSegmentEntries name idxs
    let es ← rpEntries rest
    .ok (e ++ es)

/-- `Base.create_tag_rp`: join the entries; when `multi` is set, prefix
`len(rp) // 2` computed on the *entry list*, mirroring
`bytes([len(rp) // 2]) + b''.join(rp)`. -/
def createTagRp (segs : List (List Nat × List Int)) (multi : Bool) : RpRes :=
  match rpEntries segs with
  | .error r => r
  | .ok rp =>
    if multi then .ok (rp.length / 2 :: rp.flatten) else .ok rp.flatten

/-! ## Read-Modify-Write bit masks (`LogixDriver._make_write_bit_data`,
clx.py lines 1505-1524, and `_bit_request`, lines 1831-1855) -/

/-- The bit index actually used in the masks: taken modulo 32 for a
BOOL-array element rewritten onto a DWORD slot, unchanged otherwise. -/
def rmwBitIndex (bit : Nat) (boolAry : Bool) : Nat :=
  if boolAry then bit % 32 else bit

/-- `mask_size`: forced to 4 for a BOOL array, otherwise the smallest of
1/2/4 covering the bit (`1 if bit < 8 else 2 if bit < 16 else 4`). -/
def rmwMaskSize (bit : Nat) (boolAry : Bool) : Nat :=
  if boolAry then 4 else if bit < 8 then 1 else if bit < 16 then 2 else 4

/-- `or_mask`: starts at 0x00000000; `or_mask |= (1 << bit)` when writing
true. -/
def rmwOrMask (b : Nat) (value : Bool) : Nat :=
  if value then 0 ||| (1 <<< b) else 0

/-- `and_mask`: starts at 0xFFFFFFFF; `and_mask &= ~(1 << bit)` when writing
false.  On Python's unbounded non-negative ints `a & ~x = a - (a & x)`. -/
def rmwAndMask (b : Nat) (value : Bool) : Nat :=
  if value then 0xFFFFFFFF else 0xFFFFFFFF - (0xFFFFFFFF &&& (1 <<< b))

/-- `LogixDriver._make_write_bit_data`: the Read-Modify-Write payload
`[pack_uint(mask_size), pack_udint(or_mask)[:mask_size],
pack_udint(and_mask)[:mask_size]]`; a pack failure is `none`. -/
def makeWriteBitData (bit : Nat) (value : Bool) (boolAry : Bool) : Option (List (List Nat)) :=
  match pack_uint (rmwMaskSize bit boolAry : Int),
      pack_udint (rmwOrMask (rmwBitIndex bit boolAry) value : Int),
      pack_udint (rmwAndMask (rmwBitIndex bit boolAry) value : Int) with
  | some m, some o, some a =>
    some [m, o.take (rmwMaskSize bit boolAry), a.take (rmwMaskSize bit boolAry)]
  | _, _, _ => none

/-- One accumulated Read-Modify-Write entry of `_bit_request`'s
`bit_requests` map. -/
structure BitReqEntry where
  orMask : Nat
  andMask : Nat
  bits : List Nat
deriving DecidableEq, Repr

/-- The fresh entry `_bit_request` creates for a tag not yet in the map. -/
def bitReqFresh : BitReqEntry :=
  ⟨0, 0xFFFFFFFF, []⟩

/-- The mask update `_bit_request` performs for one parsed bit write:
`boolAryKind` is true for the `'bool_array'` kind, in which case the bit is
taken modulo 32. -/
def bitRequestUpdate (e : BitReqEntry) (boolAryKind : Bool) (bit : Nat) (value : Bool) :
    BitReqEntry :=
  let e := { e with bits := e.bits ++ [bit] }
  let b := if boolAryKind then bit % 32 else bit
  if value then { e with orMask := e.orMask ||| (1 <<< b) }
  else { e with andMask := e.andMask - (e.andMask &&& (1 <<< b)) }

/-! ## Tag-scan reply parser (`LogixDriver._parse_instance_attribute_list`,
clx.py lines 318-381)

The record stream walk (lines 325-349) reads, per record: instance id
(`unpack_dint`), name length (`unpack_uint`), the name bytes, symbol type
(`unpack_uint`), symbol address, symbol object address, software control
(`unpack_udint` each), one access byte masked with `0b0011`, and three
dimension `udint`s.  An unpack of a truncated slice raises `struct.error`,
caught and re-raised as `DataError` — modelled as `none`.  After the walk,
the reply-level service status decides `last_instance`:

```python
if response.service_status == SUCCESS:
    last_instance = -1
elif response.service_status == INSUFFICIENT_PACKETS:
    last_instance = instance + 1
else:
    self.__log.warning('unknown status during _parse_instance_attribute_list')
    last_instance = -1
```
The returned Boolean records whether the unknown-status warning branch was
taken. -/

/-- `const.SUCCESS`. -/
def SUCCESS : Nat := 0

/-- `const.INSUFFICIENT_PACKETS` (CIP status 0x06). -/
def INSUFFICIENT_PACKETS : Nat := 6

/-- `unpack_uint` (`<H`) of the first two bytes, returning the rest;
`none` models the `struct.error` on a short buffer. -/
def splitU16 : List Nat → Option (Nat × List Nat)
  | a :: b :: r => some (a + 256 * b, r)
  | _ => none

/-- `unpack_udint` (`<I`) of the first four bytes, returning the rest. -/
def splitU32 : List Nat → Option (Nat × List Nat)
  | a :: b :: c :: d :: r => some (a + 256 * b + 65536 * c + 16777216 * d, r)
  | _ => none

/-- `unpack_dint` (`<i`) of the first four bytes, returning the rest. -/
def splitI32 (l : List Nat) : Option (Int × List Nat) :=
  match splitU32 l with
  | some (n, r) => some (if n < 2147483648 then (n : Int) else (n : Int) - 4294967296, r)
  | none => none

/-- One record of the Get Instance Attributes List reply stream. -/
structure TagEntry where
  instanceId : Int
  tagName : List Nat
  symbolType : Nat
  symbolAddress : Nat
  symbolObjectAddress : Nat
  softwareControl : Nat
  access : Nat
  dims : Nat × Nat × Nat
deriving DecidableEq, Repr

/-- Parse one record (one iteration of the `while idx < len` loop). -/
def readTagEntry (data : List Nat) : Option (TagEntry × List Nat) := do
  let (inst, r1) ← splitI32 data
  let (len, r2) ← splitU16 r1
  let name := r2.take len
  let r3 := r2.drop len
  let (styp, r4) ← splitU16 r3
  let (saddr, r5) ← splitU32 r4
  let (soaddr, r6) ← splitU32 r5
  let (sctl, r7) ← splitU32 r6
  let (acc, r8) ← (match r7 with
    | [] => none
    | a :: r => some (a &&& 3, r))
  let (d1, r9) ← splitU32 r8
  let (d2, r10) ← splitU32 r9
  let (d3, r11) ← splitU32 r10
  some (⟨inst, name, styp, saddr, soaddr, sctl, acc, (d1, d2, d3)⟩, r11)

/-- The record walk, threading the `instance` variable (initially 0).  Each
record consumes at least 33 bytes, so fuel `data.length + 1` never runs
out before the data does. -/
def parseRecsF : Nat → List Nat → Int → List TagEntry → Option (List TagEntry × Int)
  | 0, data, inst, acc => if data.isEmpty then some (acc, inst) else none
  | _ + 1, [], inst, acc => some (acc, inst)
  | fuel + 1, a :: data, _inst, acc =>
    match readTagEntry (a :: data) with
    | none => none
    | some (e, rest) => parseRecsF fuel rest e.instanceId (acc ++ [e])

/-- `LogixDriver._parse_instance_attribute_list`: parse the records, then
map the service status to the next `last_instance` (`-1` terminates the
scan loop `while last_instance != -1`).  The Boolean is true iff the
unknown-status warning branch ran. -/
def parseInstanceAttributeList (status : Nat) (data : List Nat) :
    Option (List TagEntry × Int × Bool) :=
  match parseRecsF (data.length + 1) data 0 [] with
  | none => none
  | some (recs, inst) =>
    if status = SUCCESS then some (recs, -1, false)
    else if status = INSUFFICIENT_PACKETS then some (recs, inst + 1, false)
    else some (recs, -1, true)

/-- Modelled from the spec: the reply validity used by
`if not response: raise DataError(...)` in
`_get_instance_attribute_list_service` (clx.py lines 306-309).  The
response class lives in `pycomm3/packets.py`, which is not under src/; per
spec §4.4 any status other than 0x00/0x06 aborts the scan with an error,
and the in-src legacy `_check_reply` (clx.py lines 1083-1096) treats a
`send_unit_data` reply as valid exactly when its service status is
`SUCCESS`, or `INSUFFICIENT_PACKETS` on a service list that includes Get
Instance Attributes List. -/
def responseValid (status : Nat) : Bool :=
  status == SUCCESS || status == INSUFFICIENT_PACKETS

/-- The scan loop of `_get_instance_attribute_list_service` (clx.py lines
260-313): starting from `last_instance = 0`, issue one request per reply
(its `pack_uint(last_instance)` argument is logged and must be in u16
range), raise `DataError` on an invalid reply, parse the records into the
accumulated `tag_list`, stop when the parser returns `-1`. -/
def scanLoop :
    List (Nat × List Nat) → List TagEntry → Int → List Int →
      Option (List Int × List TagEntry)
  | [], _, _, _ => none
  | (status, data) :: rest, tagList, lastInst, log =>
    if 0 ≤ lastInst ∧ lastInst ≤ 65535 then
      if responseValid status = false then none
      else
        match parseInstanceAttributeList status data with
        | none => none
        | some (recs, last, _warned) =>
          if last = -1 then some (log ++ [lastInst], tagList ++ recs)
          else scanLoop rest (tagList ++ recs) last (log ++ [lastInst])
    else none

/-- `LogixDriver._get_instance_attribute_list_service` (without the
program-scope path prefix): scan from instance 0. -/
def getInstanceAttributeListService (replies : List (Nat × List Nat)) :
    Option (List Int × List TagEntry) :=
  scanLoop replies [] 0 []

/-! ## Template reader (`LogixDriver._read_template`, clx.py lines 526-564)

```python
offset = 0
template_raw = b''
while True:
    request.add(..., pack_dint(offset),
                pack_uint(((object_definition_size * 4) - 21) - offset))
    response = request.send()
    if response.service_status not in (SUCCESS, INSUFFICIENT_PACKETS):
        raise DataError('Error reading template', response)
    template_raw += response.data
    if response.service_status == SUCCESS:
        break
    offset += len(response.data)
return template_raw
```
The socket replies are passed as an explicit list of `(status, data)`
pairs; running out of replies, a bad status, or an out-of-range pack all
yield `none`.  The first output component logs the `(offset, byte count)`
of every issued request. -/

/-- The `while True` loop of `_read_template`. -/
def readTemplateLoop (S : Int) :
    List (Nat × List Nat) → Int → List Nat → List (Int × Int) →
      Option (List (Int × Int) × List Nat)
  | [], _, _, _ => none
  | (status, data) :: rest, offset, acc, reqs =>
    if 0 ≤ S * 4 - 21 - offset ∧ S * 4 - 21 - offset ≤ 65535
        ∧ -2147483648 ≤ offset ∧ offset ≤ 2147483647 then
      if status ≠ SUCCESS ∧ status ≠ INSUFFICIENT_PACKETS then none
      else if status = SUCCESS then
        some (reqs ++ [(offset, S * 4 - 21 - offset)], acc ++ data)
      else
        readTemplateLoop S rest (offset + data.length) (acc ++ data)
          (reqs ++ [(offset, S * 4 - 21 - offset)])
    else none

/-- `LogixDriver._read_template` for object-definition size `S` (in 4-byte
words). -/
def readTemplate (S : Int) (replies : List (Nat × List Nat)) :
    Option (List (Int × Int) × List Nat) :=
  readTemplateLoop S replies 0 [] []

/-- The requests `_read_template` is expected to issue when the replies to
the non-final requests carry the data chunks `ds`: offsets advance by the
bytes returned, each count is `((S * 4) - 21) - offset`. -/
def expectedReqs (S : Int) : List (List Nat) → Int → List (Int × Int)
  | [], off => [(off, S * 4 - 21 - off)]
  | d :: ds, off => (off, S * 4 - 21 - off) :: expectedReqs S ds (off + d.length)

/-! ## Read planner batching (`LogixDriver._read__build_requests`,
clx.py lines 696-742)

```python
requests = []
response_size = 0
current_request = self.new_request('multi_request')
requests.append(current_request)
tags_in_requests = set()
for tag, tag_data in list(parsed_tags.items()):
    if tag_data.get('error') is None and (plc_tag, elements) not in tags_in_requests:
        tags_in_requests.add((plc_tag, elements))
        return_size = _tag_return_size(tag_info) * elements
        if return_size > self.connection_size:
            requests.append(read_tag_fragmented request)
        else:
            try:
                if response_size + return_size < self.connection_size:
                    if current_request.add_read(...):
                        response_size += return_size
                    else:
                        response_size = return_size
                        current_request = new multi; current_request.add_read(...)
                        requests.append(current_request)
                else:
                    response_size = return_size
                    current_request = new multi; current_request.add_read(...)
                    requests.append(current_request)
            except RequestError:
                continue
```
`add_read` lives in `pycomm3/packets.py`, which is not under src/; its
Boolean result (packet capacity) and its possible `RequestError` are
modelled by an oracle indexed by the number of `add_read` calls made so
far.  When `add_read` raises inside the `try`, the freshly created packet
(if any) has not been appended to `requests` — the `curApp` flag tracks
whether the open packet is in the list. -/

/-- One entry of `parsed_tags` as the read planner consumes it:
`size` is `_tag_return_size(tag_info)`. -/
structure ParsedRead where
  plcTag : String
  elements : Nat
  size : Nat
  hasError : Bool
deriving DecidableEq, Repr

/-- Outcome of one `add_read` call: returned True, returned False, or
raised `RequestError`. -/
inductive AddRes
  | ok
  | failed
  | raised
deriving DecidableEq, Repr

/-- A request emitted by the read planner: a Multiple Service Packet with
its items `(plc_tag, elements, return_size)`, or a standalone Read Tag
Fragmented request. -/
inductive ReadReq
  | multi (items : List (String × Nat × Nat))
  | frag (plcTag : String) (elements : Nat) (returnSize : Nat)
deriving DecidableEq, Repr

/-- The loop state: requests appended before the open packet, requests
appended after it (fragmented ones), the open packet's items, whether the
open packet is in `requests` (`curApp`), `response_size`, the
`tags_in_requests` set, and the `add_read` call counter. -/
structure BuildSt where
  before : List ReadReq
  after : List ReadReq
  cur : List (String × Nat × Nat)
  curApp : Bool
  rsize : Nat
  seen : List (String × Nat)
  k : Nat
deriving DecidableEq, Repr

/-- The `requests` list contents for a given state: the open packet sits
between the earlier requests and the fragmented requests appended after
its creation — unless it was never appended (`curApp = false`). -/
def closedReqs (st : BuildSt) : List ReadReq :=
  st.before ++ (if st.curApp then [.multi st.cur] else []) ++ st.after

/-- One iteration of the planner loop for parsed tag `t` with connection
size `C` and `add_read` oracle `g`. -/
def buildStep (C : Nat) (g : Nat → AddRes) (t : ParsedRead) (st : BuildSt) : BuildSt :=
  if t.hasError = true ∨ (t.plcTag, t.elements) ∈ st.seen then st
  else
    let sn := (t.plcTag, t.elements) :: st.seen
    let rs := t.size * t.elements
    if C < rs then
      { st with after := st.after ++ [.frag t.plcTag t.elements rs], seen := sn }
    else if st.rsize + rs < C then
      match g st.k with
      | .ok =>
        { st with cur := st.cur ++ [(t.plcTag, t.elements, rs)],
                  rsize := st.rsize + rs, seen := sn, k := st.k + 1 }
      | .raised => { st with seen := sn, k := st.k + 1 }
      | .failed =>
        match g (st.k + 1) with
        | .ok => ⟨closedReqs st, [], [(t.plcTag, t.elements, rs)], true, rs, sn, st.k + 2⟩
        | .failed => ⟨closedReqs st, [], [], true, rs, sn, st.k + 2⟩
        | .raised => ⟨closedReqs st, [], [], false, rs, sn, st.k + 2⟩
    else
      match g st.k with
      | .ok => ⟨closedReqs st, [], [(t.plcTag, t.elements, rs)], true, rs, sn, st.k + 1⟩
      | .failed => ⟨closedReqs st, [], [], true, rs, sn, st.k + 1⟩
      | .raised => ⟨closedReqs st, [], [], false, rs, sn, st.k + 1⟩

/-- The planner loop over all parsed tags. -/
def buildFold (C : Nat) (g : Nat → AddRes) : List ParsedRead → BuildSt → BuildSt
  | [], st => st
  | t :: ts, st => buildFold C g ts (buildStep C g t st)

/-- The initial state: one empty Multiple Service Packet already in
`requests`. -/
def initSt : BuildSt :=
  ⟨[], [], [], true, 0, [], 0⟩

/-- `LogixDriver._read__build_requests`. -/
def readBuildRequests (C : Nat) (g : Nat → AddRes) (tags : List ParsedRead) : List ReadReq :=
  closedReqs (buildFold C g tags initSt)

/-- The return size carried by one Multiple Service Packet item. -/
def itemSize : String × Nat × Nat → Nat :=
  fun it => it.2.2

/-- The claimed shape of an emitted request: a Multiple Service Packet's
return sizes sum to at most the connection size (and each item fits
individually), and a standalone fragmented request is only emitted for an
item whose return size exceeds the connection size. -/
def reqOk (C : Nat) : ReadReq → Prop
  | .multi items => (items.map itemSize).sum ≤ C ∧ ∀ it ∈ items, itemSize it ≤ C
  | .frag _ _ s => C < s

instance instDecidableReqOk (C : Nat) : (r : ReadReq) → Decidable (reqOk C r)
  | .multi items =>
    inferInstanceAs (Decidable ((items.map itemSize).sum ≤ C ∧ ∀ it ∈ items, itemSize it ≤ C))
  | .frag _ _ s => inferInstanceAs (Decidable (C < s))

/-- In the source, two parsed tags with the same `(plc_tag, elements)` key
resolve the same `tag_info`, hence the same return size: the key determines
the size. -/
def keyConsistent (tags : List ParsedRead) : Prop :=
  ∀ a ∈ tags, ∀ b ∈ tags, a.plcTag = b.plcTag → a.elements = b.elements → a.size = b.size

instance instDecidableKeyConsistent (tags : List ParsedRead) : Decidable (keyConsistent tags) :=
  inferInstanceAs (Decidable (∀ a ∈ tags, ∀ b ∈ tags,
    a.plcTag = b.plcTag → a.elements = b.elements → a.size = b.size))

/-- Loop invariant of the planner: every emitted request is well-shaped,
the open packet's item sizes are bounded by `response_size`, and
`response_size` never exceeds the connection size. -/
def buildInv (C : Nat) (st : BuildSt) : Prop :=
  (∀ r ∈ st.before ++ st.after, reqOk C r) ∧
  (st.cur.map itemSize).sum ≤ st.rsize ∧
  st.rsize ≤ C ∧
  (∀ it ∈ st.cur, itemSize it ≤ C)

/-! ## Read/write result shaping (`LogixDriver.read`, clx.py lines 656-694,
and `LogixDriver.write`, lines 744-788)

The per-tag request parsing and the wire round trip are abstracted as
oracles: `parse` stands for `_parse_requested_tags` (per-tag: either an
error string or `{plc_tag, bit, elements}`), and `results` stands for the
`_send_requests` dictionary keyed on `(plc_tag, elements)`.  The loops that
build the per-tag result lists and the final single-vs-list dispatch are
embedded as in the source. -/

/-- A tag value as the driver handles it. -/
inductive PValue
  | int (i : Int)
  | bools (bs : List Bool)
  | bool (b : Bool)
  | str (s : String)
deriving DecidableEq, Repr

/-- The `Tag` namedtuple `{tag, value, type, error}`. -/
structure RTag where
  tag : String
  value : Option PValue
  typ : Option String
  error : Option String
deriving DecidableEq, Repr

/-- Modelled from the spec: the truthiness of a `Tag` result used by
`if result:` (the `Tag` namedtuple is defined in `pycomm3/__init__.py`,
which is not under src/) — a result is truthy iff it carries a value and
no error (§7: results always carry `{name, value, type, error}` so that
successes and failures can coexist). -/
def tagTruthy (t : RTag) : Bool :=
  t.value.isSome && t.error.isNone

/-- One entry of `parsed_requests`. -/
structure ParsedReq where
  error : Option String
  plcTag : String
  bit : Option (Bool × Nat)
  elements : Nat
deriving DecidableEq, Repr

/-- Python `bool(v & (1 << bit))` on a possibly negative int (two's
complement of unbounded width). -/
def intTestBit (v : Int) (b : Nat) : Bool :=
  if 0 ≤ v then v.toNat.testBit b else !((-v - 1).toNat.testBit b)

/-- The body of the result loop of `read` for one requested tag. -/
def readResultFor (parse : String → ParsedReq) (results : String → Nat → RTag)
    (tag : String) : RTag :=
  match (parse tag).error with
  | some e => ⟨tag, none, none, some ("Invalid tag request - " ++ e)⟩
  | none =>
    let p := parse tag
    let result := results p.plcTag p.elements
    match p.bit with
    | none => result
    | some (isBoolArray, bit) =>
      if tagTruthy result then
        if isBoolArray then
          match result.value with
          | some (.bools bs) =>
            match bs.get? (bit % 32) with
            | some b => ⟨tag, some (.bool b), some "BOOL", none⟩
            | none => ⟨tag, none, none, some "Invalid tag request - index error"⟩
          | _ => ⟨tag, none, none, some "Invalid tag request - type error"⟩
        else
          match result.value with
          | some (.int v) => ⟨tag, some (.bool (intTestBit v bit)), some "BOOL", none⟩
          | _ => ⟨tag, none, none, some "Invalid tag request - type error"⟩
      else ⟨tag, none, none, result.error⟩

/-- The value or list returned to the caller (`.exn` models the uncaught
`IndexError` of `results[0]` on an empty argument list). -/
inductive CallRet
  | one (t : RTag)
  | many (ts : List RTag)
  | exn
deriving DecidableEq, Repr

/-- `LogixDriver.read`: build the per-tag results in argument order, then
return the list when more than one tag was passed, else the sole result. -/
def readCall (parse : String → ParsedReq) (results : String → Nat → RTag)
    (tags : List String) : CallRet :=
  let rs := tags.map (readResultFor parse results)
  if tags.length > 1 then .many rs
  else
    match rs with
    | [] => .exn
    | r :: _ => .one r

/-- `f'{result.type}[{elements}]'` renders a missing type as `None`. -/
def typeStr : Option String → String
  | none => "None"
  | some s => s

/-- The body of the result loop of `write` for one `(tag, value)` pair. -/
def writeResultFor (parse : String → ParsedReq) (results : String → Nat → RTag)
    (tv : String × PValue) : RTag :=
  match (parse tv.1).error with
  | some e => ⟨tv.1, none, none, some ("Invalid tag request - " ++ e)⟩
  | none =>
    let p := parse tv.1
    let r0 := results p.plcTag p.elements
    let r1 :=
      if p.elements > 1 then
        { r0 with typ := some (typeStr r0.typ ++ "[" ++ toString p.elements ++ "]") }
      else r0
    match p.bit with
    | some _ => { r1 with tag := tv.1, typ := some "BOOL", value := some tv.2 }
    | none => { r1 with tag := p.plcTag, value := some tv.2 }

/-- `LogixDriver.write`: per-pair results in argument order, then the same
single-vs-list dispatch on the number of `(tag, value)` pairs. -/
def writeCall (parse : String → ParsedReq) (results : String → Nat → RTag)
    (tagsValues : List (String × PValue)) : CallRet :=
  let rs := tagsValues.map (writeResultFor parse results)
  if tagsValues.length > 1 then .many rs
  else
    match rs with
    | [] => .exn
    | r :: _ => .one r

/-- A concrete parse oracle for witnesses: every tag parses cleanly to
itself with one element and no bit access. -/
def sampleParse : String → ParsedReq :=
  fun t => ⟨none, t, none, 1⟩

/-- A concrete result oracle for witnesses: every request read the DINT 5. -/
def sampleResults : String → Nat → RTag :=
  fun p _ => ⟨p, some (.int 5), some "DINT", none⟩

end Pycomm3

namespace Pycomm3

/-! ## Theorems for claims C1, C2, C9 -/

/-- **C1** (counterexample).  The claim says the emitted sequence values are
strictly monotone modulo 65536 (each request increments the counter exactly
once) and never 0.  Both parts fail on the code: with process id 65534 the
counter reaches 65535 and the next request emits `65534 % 65535 = 65534`,
not the mod-65536 successor 0 — and with process id 65535 the very first
request emits 0. -/
theorem c1_counterexample :
    seqEmitted 65534 1 = 65535 ∧
    seqEmitted 65534 2 = 65534 ∧
    seqEmitted 65534 2 ≠ (seqEmitted 65534 1 + 1) % 65536 ∧
    seqEmitted 65535 1 = 0 := by
  decide

/-- **C1** (amended).  While the counter is below 65535 each request
increments it exactly once; once it reaches 65535 the next request resets it
to `pid % 65535` (not the successor modulo 65536); the emitted value is
nonzero provided `pid % 65535 ≠ 0`. -/
theorem c1_amended (pid s : Nat) :
    (s < 65535 → getSequence pid s = s + 1) ∧
    (65535 ≤ s → getSequence pid s = pid % 65535) ∧
    (pid % 65535 ≠ 0 → getSequence pid s ≠ 0) := by
  refine ⟨fun h => ?_, fun h => ?_, fun h => ?_⟩
  · simp [getSequence, h]
  · simp [getSequence, Nat.not_lt.mpr h]
  · by_cases hs : s < 65535
    · simp [getSequence, hs]
    · simp [getSequence, hs, h]

/-- **C1** (witness for the amended theorem). -/
theorem c1_amended_witness :
    getSequence 7 65535 = 7 % 65535 ∧ getSequence 7 65535 ≠ 0 :=
  ⟨(c1_amended 7 65535).2.1 (by decide), (c1_amended 7 65535).2.2 (by decide)⟩

/-- **C2** (counterexample).  The claim says UnRegister Session is attempted
whenever a session is registered, even if Forward Close raised.  In the code
both calls live in one `try` block: with a connected target, a registered
session (handle 5) and a raising Forward Close, UnRegister Session is never
attempted. -/
theorem c2_counterexample :
    (closeConn ⟨true, true, 5, true⟩ true false false).fcAttempted = true ∧
    (5 : Nat) ≠ 0 ∧
    (closeConn ⟨true, true, 5, true⟩ true false false).urAttempted = false ∧
    (closeConn ⟨true, true, 5, true⟩ true false false).raised = true := by
  decide

/-- **C2** (amended).  `close` attempts Forward Close iff the target is
connected; UnRegister Session is attempted iff the session handle is nonzero
*and* the Forward Close step did not raise (both run in one guarded block);
the TCP socket shutdown is attempted (iff a socket exists) even when the
first block raised; all errors are accumulated and reported as one failure
at the end. -/
theorem c2_amended (st : ConnState) (f u s : Bool) :
    (closeConn st f u s).fcAttempted = st.targetIsConnected ∧
    (closeConn st f u s).urAttempted
      = (!(st.targetIsConnected && (st.session == 0 || f)) && !(st.session == 0)) ∧
    (closeConn st f u s).sockAttempted = st.sock ∧
    (closeConn st f u s).raised = !(closeConn st f u s).errs.isEmpty ∧
    (CloseErr.sock ∈ (closeConn st f u s).errs ↔ (st.sock && s) = true) ∧
    (CloseErr.fc ∈ (closeConn st f u s).errs
      ↔ (st.targetIsConnected && (st.session == 0 || f)) = true) := by
  obtain ⟨so, tc, se, co⟩ := st
  simp only [closeConn]
  cases so <;> cases tc <;> cases f <;> cases u <;> cases s <;>
    by_cases h : se = 0 <;>
    simp_all

/-- **C9**.  After `close` returns or raises — regardless of which steps
failed — `clean_up` has run: the socket reference is cleared, the
target-connected flag is false, the session handle is 0 and the
connection-opened flag is false. -/
theorem c9_close_resets_state (st : ConnState) (f u s : Bool) :
    (closeConn st f u s).final = ⟨false, false, 0, false⟩ := by
  rfl

/-! ## Theorems for claim C4 -/

/-- **C4** (counterexample).  The claim says every index up to `2^32 - 1`
is emitted as a `0x2A` segment and anything larger fails with an encode
error.  The code's third guard is `val <= 0xfffffffff` (nine `f`s,
`2^36 - 1`) and the value is packed with the *signed* 32-bit pack, so the
index `2^31 = 2147483648` — inside the claimed 32-bit range — does not
produce a `0x2A` segment: the pack raises. -/
theorem c4_counterexample :
    encodeTagIndex [2147483648] = RpRes.packErr ∧
    RpRes.packErr ≠ RpRes.ok ([0x2A, 0x00] ++ le32 2147483648) := by
  decide

/-- **C4** (amended).  `0x28 b` for 0..255, `0x29 0x00 ww` for 256..65535,
`0x2A 0x00 dddd` only for 65536..`2^31 - 1`; for `2^31`..`2^36 - 1` the
branch is still taken but the signed 32-bit pack fails with an encode range
error; only indices above `2^36 - 1` hit the `return None` branch. -/
theorem c4_amended (v : Int) :
    (0 ≤ v → v ≤ 255 → encodeTagIndex [v] = RpRes.ok [0x28, v.toNat]) ∧
    (256 ≤ v → v ≤ 65535 → encodeTagIndex [v] = RpRes.ok ([0x29, 0x00] ++ le16 v.toNat)) ∧
    (65536 ≤ v → v ≤ 2147483647 → encodeTagIndex [v] = RpRes.ok ([0x2A, 0x00] ++ le32 v.toNat)) ∧
    (2147483648 ≤ v → v ≤ 68719476735 → encodeTagIndex [v] = RpRes.packErr) ∧
    (68719476735 < v → encodeTagIndex [v] = RpRes.invalid) := by
  refine ⟨fun h0 h1 => ?_, fun h0 h1 => ?_, fun h0 h1 => ?_, fun h0 h1 => ?_, fun h0 => ?_⟩
  · simp [encodeTagIndex, encodeIndexSegment, pack_usint, h0, h1]
  · have hn : ¬ v ≤ 255 := by omega
    have hp : 0 ≤ v := by omega
    simp [encodeTagIndex, encodeIndexSegment, pack_uint, hn, hp, h1]
  · have hn : ¬ v ≤ 255 := by omega
    have hn2 : ¬ v ≤ 65535 := by omega
    have h3 : v ≤ 68719476735 := by omega
    have hlo : (-2147483648 : Int) ≤ v := by omega
    have hmod : v % 4294967296 = v := Int.emod_eq_of_lt (by omega) (by omega)
    simp [encodeTagIndex, encodeIndexSegment, pack_dint, hn, hn2, h3, hlo, h1, hmod]
  · have hn : ¬ v ≤ 255 := by omega
    have hn2 : ¬ v ≤ 65535 := by omega
    have h3 : v ≤ 68719476735 := by omega
    have hn3 : ¬ v ≤ 2147483647 := by omega
    simp [encodeTagIndex, encodeIndexSegment, pack_dint, hn, hn2, h3, hn3]
  · have hn : ¬ v ≤ 255 := by omega
    have hn2 : ¬ v ≤ 65535 := by omega
    have hn3 : ¬ v ≤ 68719476735 := by omega
    simp [encodeTagIndex, encodeIndexSegment, hn, hn2, hn3]

/-- **C4** (witness for the amended theorem). -/
theorem c4_amended_witness :
    encodeTagIndex [300] = RpRes.ok ([0x29, 0x00] ++ le16 (Int.toNat 300)) ∧
    encodeTagIndex [2147483648] = RpRes.packErr :=
  ⟨(c4_amended 300).2.1 (by decide) (by decide),
   (c4_amended 2147483648).2.2.2.1 (by decide) (by decide)⟩

/-! ## Theorems for claim C6 -/

/-- For a bit position below 32, masking the 32-bit all-ones word with the
single-bit mask extracts exactly that power of two. -/
theorem land_allones {b : Nat} (hb : b < 32) : 4294967295 &&& 2 ^ b = 2 ^ b := by
  interval_cases b <;> decide

/-- Clearing one bit of the 32-bit all-ones word turns that bit off. -/
theorem andmask_testBit {b : Nat} (hb : b < 32) :
    (4294967295 - 2 ^ b).testBit b = false := by
  interval_cases b <;> decide

/-- **C6**.  A single-bit write produces the Read-Modify-Write payload
`{mask_size : u16, or_mask[:mask_size], and_mask[:mask_size]}` where
`mask_size` is 1 for bits below 8, 2 below 16, else 4; writing true sets
bit `b` in `or_mask` (leaving `and_mask` all-ones), writing false clears
bit `b` in `and_mask` (leaving `or_mask` zero); and for a BOOL-array
element rewritten onto a DWORD slot, `mask_size` is forced to 4 and the
bit index used in the masks is `b % 32` — also in the batched
`_bit_request` accumulation. -/
theorem c6_bit_write_payload (bit : Nat) (value boolAry : Bool)
    (h : boolAry = true ∨ bit < 32) :
    makeWriteBitData bit value boolAry =
      some [le16 (rmwMaskSize bit boolAry),
            (le32 (rmwOrMask (rmwBitIndex bit boolAry) value)).take (rmwMaskSize bit boolAry),
            (le32 (rmwAndMask (rmwBitIndex bit boolAry) value)).take (rmwMaskSize bit boolAry)] ∧
    (boolAry = true → rmwMaskSize bit boolAry = 4 ∧ rmwBitIndex bit boolAry = bit % 32) ∧
    (boolAry = false →
      rmwMaskSize bit boolAry = (if bit < 8 then 1 else if bit < 16 then 2 else 4) ∧
      rmwBitIndex bit boolAry = bit) ∧
    rmwOrMask (rmwBitIndex bit boolAry) true = 2 ^ rmwBitIndex bit boolAry ∧
    rmwOrMask (rmwBitIndex bit boolAry) false = 0 ∧
    rmwAndMask (rmwBitIndex bit boolAry) true = 4294967295 ∧
    rmwAndMask (rmwBitIndex bit boolAry) false = 4294967295 - 2 ^ rmwBitIndex bit boolAry ∧
    (rmwOrMask (rmwBitIndex bit boolAry) true).testBit (rmwBitIndex bit boolAry) = true ∧
    (rmwAndMask (rmwBitIndex bit boolAry) false).testBit (rmwBitIndex bit boolAry) = false ∧
    (∀ e v, (bitRequestUpdate e true bit v).bits = e.bits ++ [bit]) ∧
    (∀ e, (bitRequestUpdate e true bit true).orMask = e.orMask ||| 1 <<< (bit % 32)) ∧
    (∀ e, (bitRequestUpdate e true bit false).andMask
      = e.andMask - (e.andMask &&& 1 <<< (bit % 32))) := by
  have hb : rmwBitIndex bit boolAry < 32 := by
    rcases h with h | h
    · simp [rmwBitIndex, h]
      omega
    · unfold rmwBitIndex
      split
      · omega
      · exact h
  have hbits : rmwBitIndex bit boolAry ≤ 31 := by omega
  have hor : ∀ w : Bool, rmwOrMask (rmwBitIndex bit boolAry) w ≤ 4294967295 := by
    intro w
    cases w <;> simp [rmwOrMask, Nat.shiftLeft_eq]
    calc 2 ^ rmwBitIndex bit boolAry ≤ 2 ^ 31 := Nat.pow_le_pow_right (by omega) hbits
    _ ≤ 4294967295 := by norm_num
  have hand : ∀ w : Bool, rmwAndMask (rmwBitIndex bit boolAry) w ≤ 4294967295 := by
    intro w
    cases w <;> simp [rmwAndMask]
  have hms4 : rmwMaskSize bit boolAry ≤ 4 := by
    unfold rmwMaskSize
    split_ifs <;> omega
  have hpu : pack_uint (rmwMaskSize bit boolAry : Int)
      = some (le16 (rmwMaskSize bit boolAry)) := by
    unfold pack_uint
    rw [if_pos ⟨Int.natCast_nonneg _, by exact_mod_cast hms4.trans (by norm_num)⟩]
    simp
  have hpo : pack_udint (rmwOrMask (rmwBitIndex bit boolAry) value : Int)
      = some (le32 (rmwOrMask (rmwBitIndex bit boolAry) value)) := by
    unfold pack_udint
    rw [if_pos ⟨Int.natCast_nonneg _, by exact_mod_cast hor value⟩]
    simp
  have hpa : pack_udint (rmwAndMask (rmwBitIndex bit boolAry) value : Int)
      = some (le32 (rmwAndMask (rmwBitIndex bit boolAry) value)) := by
    unfold pack_udint
    rw [if_pos ⟨Int.natCast_nonneg _, by exact_mod_cast hand value⟩]
    simp
  refine ⟨?_, ?_, ?_, ?_, ?_, ?_, ?_, ?_, ?_, ?_, ?_, ?_⟩
  · unfold makeWriteBitData
    rw [hpu, hpo, hpa]
  · intro hba
    simp [rmwMaskSize, rmwBitIndex, hba]
  · intro hba
    simp [rmwMaskSize, rmwBitIndex, hba]
  · simp [rmwOrMask, Nat.shiftLeft_eq]
  · simp [rmwOrMask]
  · simp [rmwAndMask]
  · simp only [rmwAndMask, if_neg Bool.false_ne_true, Nat.shiftLeft_eq, one_mul,
      land_allones hb]
  · simp [rmwOrMask, Nat.shiftLeft_eq, Nat.testBit_two_pow_self]
  · simp only [rmwAndMask, if_neg Bool.false_ne_true, Nat.shiftLeft_eq, one_mul,
      land_allones hb]
    exact andmask_testBit hb
  · intro e v
    cases v <;> simp [bitRequestUpdate]
  · intro e
    simp [bitRequestUpdate]
  · intro e
    simp [bitRequestUpdate]

/-- **C6** (witness). -/
theorem c6_witness :
    makeWriteBitData 5 true false =
      some [le16 (rmwMaskSize 5 false),
            (le32 (rmwOrMask (rmwBitIndex 5 false) true)).take (rmwMaskSize 5 false),
            (le32 (rmwAndMask (rmwBitIndex 5 false) true)).take (rmwMaskSize 5 false)] :=
  (c6_bit_write_payload 5 true false (Or.inr (by decide))).1

/-! ## Theorem for claim C7 -/

/-- **C7** (code bug).  The alphabetic-segment encoding is as claimed
(`0x91`, the length byte, the name bytes, a `0x00` pad iff the length is
odd; no length prefix when `multi` is false).  But the prefix byte emitted
when `multi` is true is `len(rp) // 2` computed on the Python *list of
entries*, not on the byte string: for the tag `a[300]` the request path is
8 bytes = 4 words while `rp` has 6 entries, so the emitted prefix byte is
3 — not the length of the path in words. -/
theorem c7_multi_length_byte :
    createTagRp [([97], [300])] true
      = RpRes.ok [3, 0x91, 1, 97, 0x00, 0x29, 0x00, 44, 1] ∧
    ([0x91, 1, 97, 0x00, 0x29, 0x00, 44, 1] : List Nat).length / 2 = 4 ∧
    (3 : Nat) ≠ 4 ∧
    createTagRp [([97], [300])] false
      = RpRes.ok [0x91, 1, 97, 0x00, 0x29, 0x00, 44, 1] ∧
    createTagRp [([97, 98, 99], [])] false = RpRes.ok [0x91, 3, 97, 98, 99, 0x00] ∧
    createTagRp [([97, 98], [])] false = RpRes.ok [0x91, 2, 97, 98] ∧
    createTagRp [([97], [5])] true = RpRes.ok [3, 0x91, 1, 97, 0x00, 0x28, 5] := by
  decide

/-! ## Theorems for claim C5 -/

/-- The record walk threads the `instance` variable: on success it equals
the instance id of the last parsed record, or the value it started with
when no record was parsed. -/
theorem parseRecsF_last (fuel : Nat) :
    ∀ (data : List Nat) (inst0 : Int) (acc recs : List TagEntry) (inst : Int),
      parseRecsF fuel data inst0 acc = some (recs, inst) →
      (recs = acc ∧ inst = inst0) ∨
        (∃ e, recs.getLast? = some e ∧ inst = e.instanceId) := by
  induction fuel with
  | zero =>
    intro data inst0 acc recs inst h
    unfold parseRecsF at h
    split at h
    · exact Or.inl (by injection h with h; injection h with h1 h2; exact ⟨h1.symm, h2.symm⟩)
    · exact absurd h (by simp)
  | succ fuel ih =>
    intro data inst0 acc recs inst h
    match data with
    | [] =>
      unfold parseRecsF at h
      exact Or.inl (by injection h with h; injection h with h1 h2; exact ⟨h1.symm, h2.symm⟩)
    | a :: rest =>
      unfold parseRecsF at h
      split at h
      · exact absurd h (by simp)
      · rename_i e tail heq
        rcases ih tail e.instanceId (acc ++ [e]) recs inst h with ⟨h1, h2⟩ | ⟨f, hf, hi⟩
        · refine Or.inr ⟨e, ?_, h2⟩
          rw [h1]
          exact List.getLast?_concat _
        · exact Or.inr ⟨f, hf, hi⟩

/-- **C5**.  During the instance-attribute tag scan, a reply-level status
of 0x00 terminates the scan (returning the accumulated tags), a status of
0x06 continues it with `last_instance` set to one past the last instance
id seen in that reply, and any other status makes the reply invalid so
the scan raises (`DataError`). -/
theorem c5_scan_statuses (status : Nat) (data : List Nat)
    (rest : List (Nat × List Nat)) (tagList : List TagEntry) (lastInst : Int)
    (log : List Int) (recs : List TagEntry) (inst : Int)
    (hpack : 0 ≤ lastInst ∧ lastInst ≤ 65535)
    (hparse : parseRecsF (data.length + 1) data 0 [] = some (recs, inst)) :
    (status = 0 →
      scanLoop ((status, data) :: rest) tagList lastInst log
        = some (log ++ [lastInst], tagList ++ recs)) ∧
    (status = 6 → inst + 1 ≠ -1 →
      scanLoop ((status, data) :: rest) tagList lastInst log
        = scanLoop rest (tagList ++ recs) (inst + 1) (log ++ [lastInst])) ∧
    (status ≠ 0 → status ≠ 6 →
      scanLoop ((status, data) :: rest) tagList lastInst log = none) ∧
    inst = ((recs.getLast?).map TagEntry.instanceId).getD 0 := by
  refine ⟨fun h0 => ?_, fun h6 hm => ?_, fun h0 h6 => ?_, ?_⟩
  · subst h0
    simp [scanLoop, hpack, responseValid, SUCCESS, INSUFFICIENT_PACKETS,
      parseInstanceAttributeList, hparse]
  · subst h6
    simp [scanLoop, hpack, responseValid, SUCCESS, INSUFFICIENT_PACKETS,
      parseInstanceAttributeList, hparse, hm]
  · have hrv : responseValid status = false := by
      simp only [responseValid, SUCCESS, INSUFFICIENT_PACKETS, Bool.or_eq_false_iff,
        beq_eq_false_iff_ne, ne_eq]
      exact ⟨h0, h6⟩
    simp [scanLoop, hpack, hrv]
  · rcases parseRecsF_last _ _ _ _ _ _ hparse with ⟨h1, h2⟩ | ⟨e, he, hi⟩
    · simp [h1, h2]
    · simp [he, hi]

/-- **C5** (witness): a single reply of status 0x00 holding one 34-byte
record (instance id 7, name `A`) ends the scan with that tag recorded. -/
theorem c5_witness :
    scanLoop [(0, [7, 0, 0, 0, 1, 0, 65, 0, 0, 0, 0, 0, 0, 0, 0, 0, 0, 0,
        0, 0, 0, 0, 0, 0, 0, 0, 0, 0, 0, 0, 0, 0, 0, 0])] [] 0 []
      = some (([] : List Int) ++ [(0 : Int)],
          ([] : List TagEntry) ++ [⟨7, [65], 0, 0, 0, 0, 0, (0, 0, 0)⟩]) :=
  (c5_scan_statuses 0
    [7, 0, 0, 0, 1, 0, 65, 0, 0, 0, 0, 0, 0, 0, 0, 0, 0, 0, 0, 0, 0, 0,
     0, 0, 0, 0, 0, 0, 0, 0, 0, 0, 0, 0]
    [] [] 0 [] [⟨7, [65], 0, 0, 0, 0, 0, (0, 0, 0)⟩] 7 (by decide) (by decide)).1 rfl

/-! ## Theorems for claim C8 -/

/-- Invariant run of the `_read_template` loop: from offset `off`, replies
carrying chunks `ds` under status 0x06 followed by a final chunk under
status 0x00 produce the expected request log and the concatenation of all
chunks, appended to the accumulators. -/
theorem readTemplateLoop_spec (S : Int) (dlast : List Nat)
    (hbound : S * 4 - 21 ≤ 65535) :
    ∀ (ds : List (List Nat)) (off : Int) (acc : List Nat) (reqs : List (Int × Int)),
      0 ≤ off →
      off + ((ds.map List.length).sum : Int) ≤ S * 4 - 21 →
      readTemplateLoop S (ds.map (fun d => (6, d)) ++ [(0, dlast)]) off acc reqs
        = some (reqs ++ expectedReqs S ds off, acc ++ (ds.flatten ++ dlast)) := by
  intro ds
  induction ds with
  | nil =>
    intro off acc reqs hoff hsum
    simp only [List.map_nil, List.sum_nil, Nat.cast_zero, add_zero] at hsum
    simp only [List.map_nil, List.nil_append, readTemplateLoop]
    rw [if_pos ⟨by omega, by omega, by omega, by omega⟩]
    simp [expectedReqs, SUCCESS]
  | cons d ds ih =>
    intro off acc reqs hoff hsum
    simp only [List.map_cons, List.sum_cons, Nat.cast_add] at hsum
    have hd : (0 : Int) ≤ (d.length : Int) := by positivity
    have hrest : (0 : Int) ≤ ((ds.map List.length).sum : Int) := by positivity
    simp only [List.map_cons, List.cons_append, readTemplateLoop]
    rw [if_pos ⟨by omega, by omega, by omega, by omega⟩]
    rw [if_neg (by simp [SUCCESS, INSUFFICIENT_PACKETS])]
    rw [if_neg (by simp [SUCCESS])]
    simp only [List.append_eq]
    rw [ih (off + d.length) (acc ++ d) (reqs ++ [(off, S * 4 - 21 - off)])
      (by omega) (by omega)]
    simp [expectedReqs]

/-- **C8**.  For object-definition size `S` (4-byte words), `_read_template`
issues its first request at offset 0 for `((S * 4) - 21) - 0` bytes,
advances the offset by the bytes returned after each status-0x06 reply,
requesting `((S * 4) - 21) - offset` bytes each time, stops at the first
status-0x00 reply, and returns the data fragments concatenated in request
order.  (The byte counts must fit the unsigned 16-bit pack of the request.) -/
theorem c8_read_template (S : Int) (ds : List (List Nat)) (dlast : List Nat)
    (hbound : S * 4 - 21 ≤ 65535)
    (hsum : ((ds.map List.length).sum : Int) ≤ S * 4 - 21) :
    readTemplate S (ds.map (fun d => (6, d)) ++ [(0, dlast)])
      = some (expectedReqs S ds 0, ds.flatten ++ dlast) := by
  have h := readTemplateLoop_spec S dlast hbound ds 0 [] [] le_rfl (by omega)
  simpa [readTemplate] using h

/-- **C8** (witness): size 10 words, one 3-byte 0x06 fragment then a final
1-byte 0x00 fragment; requests are `(0, 19)` and `(3, 16)`. -/
theorem c8_witness :
    readTemplate 10 [(6, [1, 2, 3]), (0, [9])]
      = some (expectedReqs 10 [[1, 2, 3]] 0, [[1, 2, 3]].flatten ++ [9]) := by
  have h := c8_read_template 10 [[1, 2, 3]] [9] (by norm_num) (by norm_num)
  simpa using h

/-! ## Theorems for claim C3 -/

/-- Anything already in `requests` outside the open packet stays in
`requests`. -/
theorem mem_closedReqs_of_mem (st : BuildSt) (r : ReadReq)
    (h : r ∈ st.before ++ st.after) : r ∈ closedReqs st := by
  simp only [closedReqs, List.mem_append] at *
  tauto

/-- Under the loop invariant every request currently in `requests` —
including the open packet — is well-shaped. -/
theorem closedReqs_ok (C : Nat) (st : BuildSt) (h : buildInv C st) :
    ∀ r ∈ closedReqs st, reqOk C r := by
  intro r hr
  obtain ⟨hba, hsum, hrs, hit⟩ := h
  simp only [closedReqs, List.mem_append] at hr
  rcases hr with (hr | hr) | hr
  · exact hba r (List.mem_append.mpr (Or.inl hr))
  · by_cases hc : st.curApp = true
    · simp only [hc, if_pos, List.mem_singleton] at hr
      subst hr
      exact ⟨le_trans hsum hrs, hit⟩
    · simp [hc] at hr
  · exact hba r (List.mem_append.mpr (Or.inr hr))

/-- One planner iteration preserves the loop invariant. -/
theorem buildStep_inv (C : Nat) (g : Nat → AddRes) (t : ParsedRead) (st : BuildSt)
    (h : buildInv C st) : buildInv C (buildStep C g t st) := by
  obtain ⟨hba, hsum, hrs, hit⟩ := h
  by_cases h0 : t.hasError = true ∨ (t.plcTag, t.elements) ∈ st.seen
  · simpa [buildStep, h0] using ⟨hba, hsum, hrs, hit⟩
  · by_cases hbig : C < t.size * t.elements
    · simp only [buildStep, if_neg h0, if_pos hbig]
      refine ⟨?_, hsum, hrs, hit⟩
      intro r hr
      simp only [List.mem_append, List.mem_singleton] at hr
      rcases hr with hr | hr | hr
      · exact hba r (List.mem_append.mpr (Or.inl hr))
      · exact hba r (List.mem_append.mpr (Or.inr hr))
      · subst hr
        exact hbig
    · have hcl := closedReqs_ok C st ⟨hba, hsum, hrs, hit⟩
      by_cases hfit : st.rsize + t.size * t.elements < C
      · cases hg : g st.k with
        | ok =>
          simp only [buildStep, if_neg h0, if_neg hbig, if_pos hfit, hg]
          refine ⟨hba, ?_, by show st.rsize + t.size * t.elements ≤ C; omega, ?_⟩
          · simp only [List.map_append, List.sum_append, List.map_cons, List.map_nil,
              List.sum_cons, List.sum_nil, itemSize]
            omega
          · intro it hity
            rcases List.mem_append.mp hity with h1 | h1
            · exact hit it h1
            · simp only [List.mem_singleton] at h1
              subst h1
              simp only [itemSize]
              omega
        | raised =>
          simpa [buildStep, if_neg h0, if_neg hbig, if_pos hfit, hg]
            using ⟨hba, hsum, hrs, hit⟩
        | failed =>
          cases hg2 : g (st.k + 1) with
          | ok =>
            simp only [buildStep, if_neg h0, if_neg hbig, if_pos hfit, hg, hg2]
            refine ⟨?_, ?_, by show t.size * t.elements ≤ C; omega, ?_⟩
            · intro r hr
              simp only [List.append_nil] at hr
              exact hcl r hr
            · simp [itemSize]
            · intro it hity
              simp only [List.mem_singleton] at hity
              subst hity
              simp only [itemSize]
              omega
          | failed =>
            simp only [buildStep, if_neg h0, if_neg hbig, if_pos hfit, hg, hg2]
            refine ⟨?_, by simp, by show t.size * t.elements ≤ C; omega, by simp⟩
            intro r hr
            simp only [List.append_nil] at hr
            exact hcl r hr
          | raised =>
            simp only [buildStep, if_neg h0, if_neg hbig, if_pos hfit, hg, hg2]
            refine ⟨?_, by simp, by show t.size * t.elements ≤ C; omega, by simp⟩
            intro r hr
            simp only [List.append_nil] at hr
            exact hcl r hr
      · cases hg : g st.k with
        | ok =>
          simp only [buildStep, if_neg h0, if_neg hbig, if_neg hfit, hg]
          refine ⟨?_, ?_, by show t.size * t.elements ≤ C; omega, ?_⟩
          · intro r hr
            simp only [List.append_nil] at hr
            exact hcl r hr
          · simp [itemSize]
          · intro it hity
            simp only [List.mem_singleton] at hity
            subst hity
            simp only [itemSize]
            omega
        | failed =>
          simp only [buildStep, if_neg h0, if_neg hbig, if_neg hfit, hg]
          refine ⟨?_, by simp, by show t.size * t.elements ≤ C; omega, by simp⟩
          intro r hr
          simp only [List.append_nil] at hr
          exact hcl r hr
        | raised =>
          simp only [buildStep, if_neg h0, if_neg hbig, if_neg hfit, hg]
          refine ⟨?_, by simp, by show t.size * t.elements ≤ C; omega, by simp⟩
          intro r hr
          simp only [List.append_nil] at hr
          exact hcl r hr

/-- The whole planner loop preserves the invariant. -/
theorem buildFold_inv (C : Nat) (g : Nat → AddRes) :
    ∀ (ts : List ParsedRead) (st : BuildSt),
      buildInv C st → buildInv C (buildFold C g ts st) := by
  intro ts
  induction ts with
  | nil => intro st h; exact h
  | cons hd ts ih =>
    intro st h
    exact ih _ (buildStep_inv C g hd st h)

/-- One planner iteration never removes an emitted request. -/
theorem buildStep_mem_mono (C : Nat) (g : Nat → AddRes) (t : ParsedRead) (st : BuildSt)
    (r : ReadReq) (h : r ∈ st.before ++ st.after) :
    r ∈ (buildStep C g t st).before ++ (buildStep C g t st).after := by
  have hcl : r ∈ closedReqs st := mem_closedReqs_of_mem st r h
  by_cases h0 : t.hasError = true ∨ (t.plcTag, t.elements) ∈ st.seen
  · simpa [buildStep, h0] using h
  · by_cases hbig : C < t.size * t.elements
    · simp only [buildStep, if_neg h0, if_pos hbig]
      simp only [List.mem_append] at h ⊢
      rcases h with h | h
      · exact Or.inl h
      · exact Or.inr (Or.inl h)
    · by_cases hfit : st.rsize + t.size * t.elements < C
      · cases hg : g st.k with
        | ok => simpa [buildStep, if_neg h0, if_neg hbig, if_pos hfit, hg] using h
        | raised => simpa [buildStep, if_neg h0, if_neg hbig, if_pos hfit, hg] using h
        | failed =>
          cases hg2 : g (st.k + 1) with
          | ok =>
            simp only [buildStep, if_neg h0, if_neg hbig, if_pos hfit, hg, hg2]
            simpa using hcl
          | failed =>
            simp only [buildStep, if_neg h0, if_neg hbig, if_pos hfit, hg, hg2]
            simpa using hcl
          | raised =>
            simp only [buildStep, if_neg h0, if_neg hbig, if_pos hfit, hg, hg2]
            simpa using hcl
      · cases hg : g st.k with
        | ok =>
          simp only [buildStep, if_neg h0, if_neg hbig, if_neg hfit, hg]
          simpa using hcl
        | failed =>
          simp only [buildStep, if_neg h0, if_neg hbig, if_neg hfit, hg]
          simpa using hcl
        | raised =>
          simp only [buildStep, if_neg h0, if_neg hbig, if_neg hfit, hg]
          simpa using hcl

/-- Emitted requests persist through the rest of the loop. -/
theorem buildFold_mem_mono (C : Nat) (g : Nat → AddRes) :
    ∀ (ts : List ParsedRead) (st : BuildSt) (r : ReadReq),
      r ∈ st.before ++ st.after →
      r ∈ (buildFold C g ts st).before ++ (buildFold C g ts st).after := by
  intro ts
  induction ts with
  | nil => intro st r h; exact h
  | cons hd ts ih =>
    intro st r h
    exact ih _ r (buildStep_mem_mono C g hd st r h)

/-- One planner iteration adds at most the processed tag's key to
`tags_in_requests`. -/
theorem buildStep_seen (C : Nat) (g : Nat → AddRes) (t : ParsedRead) (st : BuildSt) :
    (buildStep C g t st).seen = st.seen ∨
      (buildStep C g t st).seen = (t.plcTag, t.elements) :: st.seen := by
  by_cases h0 : t.hasError = true ∨ (t.plcTag, t.elements) ∈ st.seen
  · simp [buildStep, h0]
  · by_cases hbig : C < t.size * t.elements
    · simp [buildStep, h0, hbig]
    · by_cases hfit : st.rsize + t.size * t.elements < C
      · cases hg : g st.k with
        | ok => simp [buildStep, h0, hbig, hfit, hg]
        | raised => simp [buildStep, h0, hbig, hfit, hg]
        | failed =>
          cases hg2 : g (st.k + 1) with
          | ok => simp [buildStep, h0, hbig, hfit, hg, hg2]
          | failed => simp [buildStep, h0, hbig, hfit, hg, hg2]
          | raised => simp [buildStep, h0, hbig, hfit, hg, hg2]
      · cases hg : g st.k with
        | ok => simp [buildStep, h0, hbig, hfit, hg]
        | failed => simp [buildStep, h0, hbig, hfit, hg]
        | raised => simp [buildStep, h0, hbig, hfit, hg]

/-- An error-free oversize tag whose key is not yet taken ends up as a
standalone fragmented request. -/
theorem buildFold_oversize (C : Nat) (g : Nat → AddRes) :
    ∀ (ts : List ParsedRead) (st : BuildSt) (t : ParsedRead),
      t ∈ ts → t.hasError = false → C < t.size * t.elements →
      (t.plcTag, t.elements) ∉ st.seen →
      (∀ b ∈ ts, b.plcTag = t.plcTag → b.elements = t.elements → b.size = t.size) →
      ReadReq.frag t.plcTag t.elements (t.size * t.elements)
        ∈ closedReqs (buildFold C g ts st) := by
  intro ts
  induction ts with
  | nil =>
    intro st t ht
    exact absurd ht (List.not_mem_nil t)
  | cons hd ts ih =>
    intro st t ht herr hbig hseen hcons
    by_cases hkey : hd.plcTag = t.plcTag ∧ hd.elements = t.elements
    · have hsize : hd.size = t.size := hcons hd (List.mem_cons_self hd ts) hkey.1 hkey.2
      by_cases hhe : hd.hasError = true
      · have htts : t ∈ ts := by
          rcases List.mem_cons.mp ht with rfl | hmem
          · rw [herr] at hhe
            exact absurd hhe (by simp)
          · exact hmem
        have hskip : buildStep C g hd st = st := by
          simp [buildStep, hhe]
        rw [buildFold, hskip]
        exact ih st t htts herr hbig hseen fun b hb => hcons b (List.mem_cons_of_mem hd hb)
      · have hns : ¬ (hd.hasError = true ∨ (hd.plcTag, hd.elements) ∈ st.seen) := by
          rw [hkey.1, hkey.2]
          exact fun hor => hor.elim hhe hseen
        have hbig2 : C < hd.size * hd.elements := by
          rw [hsize, hkey.2]
          exact hbig
        have hstep : buildStep C g hd st =
            { st with
              after := st.after
                ++ [ReadReq.frag hd.plcTag hd.elements (hd.size * hd.elements)],
              seen := (hd.plcTag, hd.elements) :: st.seen } := by
          simp [buildStep, hns, hbig2]
        rw [buildFold, hstep]
        refine mem_closedReqs_of_mem _ _ (buildFold_mem_mono C g ts _ _ ?_)
        simp only [List.mem_append, List.mem_singleton]
        right
        right
        rw [hkey.1, hkey.2, hsize]
    · have htts : t ∈ ts := by
        rcases List.mem_cons.mp ht with rfl | hmem
        · exact absurd ⟨rfl, rfl⟩ hkey
        · exact hmem
      have hseen2 : (t.plcTag, t.elements) ∉ (buildStep C g hd st).seen := by
        rcases buildStep_seen C g hd st with hs | hs <;> rw [hs]
        · exact hseen
        · intro hmem
          rcases List.mem_cons.mp hmem with heq | hmem2
          · rw [Prod.mk.injEq] at heq
            exact hkey ⟨heq.1.symm, heq.2.symm⟩
          · exact hseen hmem2
      rw [buildFold]
      exact ih _ t htts herr hbig hseen2 fun b hb => hcons b (List.mem_cons_of_mem hd hb)

/-- **C3**.  Every Multiple Service Packet the read planner emits has its
return sizes (`type_size * elements`) summing to at most the connection
size, every item inside one fits individually, every standalone fragmented
request carries a return size exceeding the connection size, and every
error-free parsed tag whose return size exceeds the connection size is
emitted as a standalone Read Tag Fragmented request (never inside a
Multiple Service Packet) — for any connection size, any `add_read`
behaviour and any input batch whose `(plc_tag, elements)` keys determine
their sizes. -/
theorem c3_read_batching (C : Nat) (g : Nat → AddRes) (tags : List ParsedRead) :
    (∀ r ∈ readBuildRequests C g tags, reqOk C r) ∧
    (keyConsistent tags →
      ∀ t ∈ tags, t.hasError = false → C < t.size * t.elements →
        ReadReq.frag t.plcTag t.elements (t.size * t.elements)
          ∈ readBuildRequests C g tags) := by
  constructor
  · intro r hr
    have hinv : buildInv C initSt := by
      refine ⟨?_, ?_, ?_, ?_⟩ <;> simp [initSt]
    exact closedReqs_ok C _ (buildFold_inv C g tags initSt hinv) r hr
  · intro hcons t ht herr hbig
    refine buildFold_oversize C g tags initSt t ht herr hbig (by simp [initSt]) ?_
    intro b hb h1 h2
    exact hcons b hb t ht h1 h2

/-- **C3** (witness): connection size 4, one error-free tag of return size
`10 * 1`; it is emitted fragmented, and that request is well-shaped. -/
theorem c3_witness :
    reqOk 4 (ReadReq.frag "a" 1 (10 * 1)) ∧
    ReadReq.frag "a" 1 (10 * 1)
      ∈ readBuildRequests 4 (fun _ => AddRes.ok) [⟨"a", 1, 10, false⟩] :=
  ⟨(c3_read_batching 4 (fun _ => AddRes.ok) [⟨"a", 1, 10, false⟩]).1
      (ReadReq.frag "a" 1 (10 * 1)) (by decide),
   (c3_read_batching 4 (fun _ => AddRes.ok) [⟨"a", 1, 10, false⟩]).2
      (by decide) ⟨"a", 1, 10, false⟩ (by decide) rfl (by decide)⟩

/-! ## Theorems for claim C10 -/

/-- **C10**.  `read` and `write` return a single `Tag` record when called
with exactly one tag (or one tag/value pair), and a list of `Tag` records
in argument order when called with more than one. -/
theorem c10_single_vs_list (parse : String → ParsedReq) (results : String → Nat → RTag)
    (tags : List String) (tagsValues : List (String × PValue)) :
    (∀ t, readCall parse results [t] = .one (readResultFor parse results t)) ∧
    (2 ≤ tags.length →
      readCall parse results tags = .many (tags.map (readResultFor parse results))) ∧
    (∀ tv, writeCall parse results [tv] = .one (writeResultFor parse results tv)) ∧
    (2 ≤ tagsValues.length →
      writeCall parse results tagsValues
        = .many (tagsValues.map (writeResultFor parse results))) := by
  refine ⟨fun t => ?_, fun h => ?_, fun tv => ?_, fun h => ?_⟩
  · simp [readCall]
  · simp only [readCall]
    rw [if_pos (by omega)]
  · simp [writeCall]
  · simp only [writeCall]
    rw [if_pos (by omega)]

/-- **C10** (witness). -/
theorem c10_witness :
    readCall sampleParse sampleResults ["a", "b"]
      = CallRet.many (["a", "b"].map (readResultFor sampleParse sampleResults)) ∧
    writeCall sampleParse sampleResults [("a", PValue.int 1)]
      = CallRet.one (writeResultFor sampleParse sampleResults ("a", PValue.int 1)) :=
  ⟨(c10_single_vs_list sampleParse sampleResults ["a", "b"] []).2.1 (by decide),
   (c10_single_vs_list sampleParse sampleResults [] [("a", PValue.int 1)]).2.2.1
      ("a", PValue.int 1)⟩

end Pycomm3
